import Mathlib

/-!
Verification of the `SpriteFrameCache` component of the Karaoke repository.

The repository ships only the class header
(`src/Classes/KRKLibNew/Renderer/SpriteFrameCache.h`): the method bodies are
not part of the visible sources.  The definitions below are therefore a
shallow embedding modelled from the specification (and the header's own
documentation comments), as small executable Lean functions over an explicit
cache state.  Mutating methods take the cache and return the new cache;
observer methods return the observed value paired with the (unchanged) cache
state, mirroring a method call on the object.
-/

set_option autoImplicit false

namespace KRK

/-- Modelled from the spec: the frame-metadata record described in the header
(`spriteOffset`, `spriteSize`, `spriteSourceSize`, `textureRect`,
`textureRotated`), plus the reference count inherited from the engine's `Ref`
base object model (the spec's eviction policy is "remove if refcount is 1"). -/
structure SpriteFrame where
  offsetX : Int
  offsetY : Int
  sizeW : Int
  sizeH : Int
  sourceW : Int
  sourceH : Int
  rectX : Int
  rectY : Int
  rectW : Int
  rectH : Int
  rotated : Bool
  retainCount : Nat
deriving DecidableEq, Repr

/-- Modelled from the spec: the content of a parsed plist asset file, reduced
to its `frames` dictionary (frame name keyed to the frame record).  Parsing
and the `metadata` dictionary belong to the external engine and are out of
scope. -/
structure PlistFile where
  frames : List (String × SpriteFrame)
deriving DecidableEq, Repr

/-- Modelled from the spec: the cache state — the name-keyed sprite-frame
table `_spriteFrames`, the alias map `_spriteFramesAliases`, and the set of
loaded plist file names `_loadedFileNames` used for idempotent reloading. -/
structure SpriteFrameCache where
  spriteFrames : List (String × SpriteFrame)
  spriteFramesAliases : List (String × String)
  loadedFileNames : List String
deriving DecidableEq, Repr

/-- First frame record bound to the given name in the table, if any. -/
def lookupFrame : List (String × SpriteFrame) → String → Option SpriteFrame
  | [], _ => none
  | p :: t, n => if p.1 = n then some p.2 else lookupFrame t n

/-- Remove every binding of the given name from the table. -/
def eraseKey : List (String × SpriteFrame) → String → List (String × SpriteFrame)
  | [], _ => []
  | p :: t, n => if p.1 = n then eraseKey t n else p :: eraseKey t n

/-- Membership test on the loaded-file-name set. -/
def containsName : List String → String → Bool
  | [], _ => false
  | s :: t, n => if s = n then true else containsName t n

/-- Remove a name from the loaded-file-name set. -/
def removeName : List String → String → List String
  | [], _ => []
  | s :: t, n => if s = n then removeName t n else s :: removeName t n

/-- Keep only the table entries whose frame is still referenced outside the
cache (retain count different from 1). -/
def keepUsed : List (String × SpriteFrame) → List (String × SpriteFrame)
  | [] => []
  | p :: t => if p.2.retainCount = 1 then keepUsed t else p :: keepUsed t

/-- Modelled from the spec: the state of a freshly constructed cache (all
three containers empty). -/
def emptyCache : SpriteFrameCache :=
  { spriteFrames := [], spriteFramesAliases := [], loadedFileNames := [] }

/-- Modelled from the spec: `getSpriteFrameByName` — "Returns an Sprite Frame
that was previously added.  If the name is not found it will return nil."  A
pure observer: the result is paired with the unchanged cache state. -/
def getSpriteFrameByName (c : SpriteFrameCache) (name : String) :
    Option SpriteFrame × SpriteFrameCache :=
  (lookupFrame c.spriteFrames name, c)

/-- Modelled from the spec: `isSpriteFramesWithFileLoaded` — "Check if
multiple Sprite Frames from a plist file have been loaded."  A pure observer:
the result is paired with the unchanged cache state. -/
def isSpriteFramesWithFileLoaded (c : SpriteFrameCache) (plist : String) :
    Bool × SpriteFrameCache :=
  (containsName c.loadedFileNames plist, c)

/-- Modelled from the spec: `addSpriteFrame` — "Adds an sprite frame with a
given name.  If the name already exists, then the contents of the old name
will be replaced with the new one." -/
def addSpriteFrame (c : SpriteFrameCache) (frame : SpriteFrame)
    (frameName : String) : SpriteFrameCache :=
  { c with spriteFrames := (frameName, frame) :: eraseKey c.spriteFrames frameName }

/-- Modelled from the spec: `addSpriteFramesWithDictionary` — store every
frame of the parsed `frames` dictionary in the name-keyed table. -/
def addSpriteFramesWithDictionary (c : SpriteFrameCache)
    (frames : List (String × SpriteFrame)) : SpriteFrameCache :=
  frames.foldl (fun acc p => addSpriteFrame acc p.2 p.1) c

/-- Modelled from the spec: `addSpriteFramesWithFile` — "Adds multiple Sprite
Frames from a plist file", recording the file name in the loaded-file set,
which is "used for idempotent reloading": a file whose name is already in the
set is not loaded again.  The file's parsed content is passed explicitly
(parsing is the external engine's job). -/
def addSpriteFramesWithFile (c : SpriteFrameCache) (plist : String)
    (file : PlistFile) : SpriteFrameCache :=
  if (isSpriteFramesWithFileLoaded c plist).1 then c
  else
    let c2 := addSpriteFramesWithDictionary c file.frames
    { c2 with loadedFileNames := plist :: c2.loadedFileNames }

/-- Modelled from the spec: `removeSpriteFrames` — "Purges the dictionary of
loaded sprite frames", returning the cache to its freshly initialized state. -/
def removeSpriteFrames (_c : SpriteFrameCache) : SpriteFrameCache :=
  emptyCache

/-- Modelled from the spec: `removeUnusedSpriteFrames` — "Sprite Frames that
have a retain count of 1 will be deleted." -/
def removeUnusedSpriteFrames (c : SpriteFrameCache) : SpriteFrameCache :=
  { c with spriteFrames := keepUsed c.spriteFrames }

/-- Modelled from the spec: `removeSpriteFrameByName` — "Deletes an sprite
frame from the sprite frame cache." -/
def removeSpriteFrameByName (c : SpriteFrameCache) (name : String) :
    SpriteFrameCache :=
  { c with spriteFrames := eraseKey c.spriteFrames name }

/-- Modelled from the spec: `removeSpriteFramesFromDictionary` — remove from
the table every frame name listed in the given `frames` dictionary. -/
def removeSpriteFramesFromDictionary (c : SpriteFrameCache)
    (frames : List (String × SpriteFrame)) : SpriteFrameCache :=
  { c with spriteFrames := frames.foldl (fun t p => eraseKey t p.1) c.spriteFrames }

/-- Modelled from the spec: `removeSpriteFramesFromFile` — "Sprite Frames
stored in this file will be removed", and the file name leaves the
loaded-file set so that a later reload is not skipped as already loaded. -/
def removeSpriteFramesFromFile (c : SpriteFrameCache) (plist : String)
    (file : PlistFile) : SpriteFrameCache :=
  let c2 := removeSpriteFramesFromDictionary c file.frames
  { c2 with loadedFileNames := removeName c2.loadedFileNames plist }

/-- Modelled from the spec: `getInstance` — "Returns the shared instance of
the Sprite Frame cache", creating and retaining a fresh empty cache when none
exists.  The process-wide singleton slot is made explicit as an
`Option SpriteFrameCache` threaded through the call. -/
def getInstance : Option SpriteFrameCache → SpriteFrameCache × Option SpriteFrameCache
  | none => (emptyCache, some emptyCache)
  | some c => (c, some c)

/-- Modelled from the spec: `destroyInstance` — "Destroys the cache.  It
releases all the Sprite Frames and the retained instance", emptying the
singleton slot. -/
def destroyInstance : Option SpriteFrameCache → Option SpriteFrameCache :=
  fun _ => none

/-- Key uniqueness of the sprite-frame table: each frame name occurs at most
once as a key. -/
def keysNodup (c : SpriteFrameCache) : Prop :=
  (c.spriteFrames.map Prod.fst).Nodup

instance (c : SpriteFrameCache) : Decidable (keysNodup c) := by
  unfold keysNodup; infer_instance

/-! ### Helper lemmas about the table primitives -/

theorem lookupFrame_eraseKey_self (t : List (String × SpriteFrame)) (n : String) :
    lookupFrame (eraseKey t n) n = none := by
  induction t with
  | nil => rfl
  | cons p t ih =>
    by_cases h : p.1 = n
    · simpa [eraseKey, h] using ih
    · simpa [eraseKey, lookupFrame, h] using ih

theorem lookupFrame_eraseKey_ne (t : List (String × SpriteFrame)) (m n : String)
    (h : m ≠ n) : lookupFrame (eraseKey t n) m = lookupFrame t m := by
  have hnm : n ≠ m := Ne.symm h
  induction t with
  | nil => rfl
  | cons p t ih =>
    by_cases hp : p.1 = n
    · simp [eraseKey, lookupFrame, hp, hnm, ih]
    · simp [eraseKey, lookupFrame, hp, ih]

theorem lookupFrame_addSpriteFrame_self (c : SpriteFrameCache)
    (frame : SpriteFrame) (name : String) :
    lookupFrame (addSpriteFrame c frame name).spriteFrames name = some frame := by
  simp [addSpriteFrame, lookupFrame]

theorem lookupFrame_addSpriteFrame_ne (c : SpriteFrameCache)
    (frame : SpriteFrame) (name m : String) (h : m ≠ name) :
    lookupFrame (addSpriteFrame c frame name).spriteFrames m =
      lookupFrame c.spriteFrames m := by
  have hnm : name ≠ m := Ne.symm h
  simp [addSpriteFrame, lookupFrame, hnm,
    lookupFrame_eraseKey_ne c.spriteFrames m name h]

theorem addDict_cons (c : SpriteFrameCache) (p : String × SpriteFrame)
    (t : List (String × SpriteFrame)) :
    addSpriteFramesWithDictionary c (p :: t) =
      addSpriteFramesWithDictionary (addSpriteFrame c p.2 p.1) t := rfl

theorem lookupFrame_addDict_notMem (c : SpriteFrameCache)
    (frames : List (String × SpriteFrame)) (name : String)
    (h : name ∉ frames.map Prod.fst) :
    lookupFrame (addSpriteFramesWithDictionary c frames).spriteFrames name =
      lookupFrame c.spriteFrames name := by
  induction frames generalizing c with
  | nil => rfl
  | cons p t ih =>
    have h1 : name ≠ p.1 := by
      intro he; exact h (by simp [he])
    have h2 : name ∉ t.map Prod.fst := by
      intro hm; exact h (by simp [hm])
    calc lookupFrame (addSpriteFramesWithDictionary (addSpriteFrame c p.2 p.1) t).spriteFrames name
        = lookupFrame (addSpriteFrame c p.2 p.1).spriteFrames name := ih _ h2
      _ = lookupFrame c.spriteFrames name :=
          lookupFrame_addSpriteFrame_ne c p.2 p.1 name h1

theorem lookupFrame_addDict_mem (c : SpriteFrameCache)
    (frames : List (String × SpriteFrame)) (name : String) (frame : SpriteFrame)
    (hnodup : (frames.map Prod.fst).Nodup) (hmem : (name, frame) ∈ frames) :
    lookupFrame (addSpriteFramesWithDictionary c frames).spriteFrames name =
      some frame := by
  induction frames generalizing c with
  | nil => cases hmem
  | cons p t ih =>
    have hnodup' : (p.1 :: t.map Prod.fst).Nodup := by simpa using hnodup
    rcases List.mem_cons.mp hmem with he | hm
    · subst he
      rw [addDict_cons]
      have hkeys : name ∉ t.map Prod.fst := (List.nodup_cons.mp hnodup').1
      rw [lookupFrame_addDict_notMem _ t name hkeys]
      exact lookupFrame_addSpriteFrame_self c frame name
    · rw [addDict_cons]
      exact ih (addSpriteFrame c p.2 p.1) (List.nodup_cons.mp hnodup').2 hm

theorem lookupFrame_eraseFold (frames : List (String × SpriteFrame))
    (t : List (String × SpriteFrame)) (name : String) :
    lookupFrame (frames.foldl (fun u p => eraseKey u p.1) t) name =
      if name ∈ frames.map Prod.fst then none else lookupFrame t name := by
  induction frames generalizing t with
  | nil => simp
  | cons p fs ih =>
    rw [List.foldl_cons, ih]
    by_cases h : name = p.1
    · have hmemc : name ∈ (p :: fs).map Prod.fst := by simp [h]
      rw [if_pos hmemc]
      by_cases hm : name ∈ fs.map Prod.fst
      · rw [if_pos hm]
      · rw [if_neg hm, h, lookupFrame_eraseKey_self]
    · have hiff : name ∈ (p :: fs).map Prod.fst ↔ name ∈ fs.map Prod.fst := by
        simp [h]
      rw [lookupFrame_eraseKey_ne t name p.1 h]
      by_cases hm : name ∈ fs.map Prod.fst
      · rw [if_pos hm, if_pos (hiff.mpr hm)]
      · rw [if_neg hm, if_neg (fun hc => hm (hiff.mp hc))]

theorem containsName_removeName_self (l : List String) (n : String) :
    containsName (removeName l n) n = false := by
  induction l with
  | nil => rfl
  | cons s t ih =>
    by_cases h : s = n
    · simpa [removeName, h] using ih
    · simpa [removeName, containsName, h] using ih

theorem lookupFrame_none_of_notMem_keys (t : List (String × SpriteFrame))
    (n : String) (h : n ∉ t.map Prod.fst) : lookupFrame t n = none := by
  induction t with
  | nil => rfl
  | cons p u ih =>
    have h1 : p.1 ≠ n := by
      intro he; exact h (by simp [he])
    have h2 : n ∉ u.map Prod.fst := by
      intro hm; exact h (by simp [hm])
    simp [lookupFrame, h1, ih h2]

theorem lookupFrame_keepUsed_none (t : List (String × SpriteFrame)) (n : String)
    (h : lookupFrame t n = none) : lookupFrame (keepUsed t) n = none := by
  induction t with
  | nil => rfl
  | cons p u ih =>
    by_cases hp : p.1 = n
    · simp [lookupFrame, hp] at h
    · have h' : lookupFrame u n = none := by simpa [lookupFrame, hp] using h
      by_cases hr : p.2.retainCount = 1
      · simpa [keepUsed, hr] using ih h'
      · simpa [keepUsed, lookupFrame, hr, hp] using ih h'

theorem lookupFrame_keepUsed (t : List (String × SpriteFrame)) (n : String)
    (f : SpriteFrame) (hnodup : (t.map Prod.fst).Nodup)
    (h : lookupFrame t n = some f) :
    lookupFrame (keepUsed t) n = if f.retainCount = 1 then none else some f := by
  induction t with
  | nil => simp [lookupFrame] at h
  | cons p u ih =>
    have hnodup' : (p.1 :: u.map Prod.fst).Nodup := by simpa using hnodup
    have hnd1 : p.1 ∉ u.map Prod.fst := (List.nodup_cons.mp hnodup').1
    have hnd2 : (u.map Prod.fst).Nodup := (List.nodup_cons.mp hnodup').2
    by_cases hp : p.1 = n
    · have hf : p.2 = f := by simpa [lookupFrame, hp] using h
      have hu : lookupFrame u n = none := by
        apply lookupFrame_none_of_notMem_keys
        rw [← hp]; exact hnd1
      by_cases hr : f.retainCount = 1
      · simp [keepUsed, hf, hr, lookupFrame_keepUsed_none u n hu]
      · simp [keepUsed, hf, hr, lookupFrame, hp]
    · have h' : lookupFrame u n = some f := by simpa [lookupFrame, hp] using h
      by_cases hr : p.2.retainCount = 1
      · simpa [keepUsed, hr] using ih hnd2 h'
      · simpa [keepUsed, lookupFrame, hr, hp] using ih hnd2 h'

/-! ### Key uniqueness is preserved by every operation -/

theorem keys_eraseKey_sublist (t : List (String × SpriteFrame)) (n : String) :
    List.Sublist ((eraseKey t n).map Prod.fst) (t.map Prod.fst) := by
  induction t with
  | nil => exact List.Sublist.refl _
  | cons p u ih =>
    by_cases hp : p.1 = n
    · rw [show eraseKey (p :: u) n = eraseKey u n from by simp [eraseKey, hp]]
      simp only [List.map_cons]
      exact ih.cons _
    · rw [show eraseKey (p :: u) n = p :: eraseKey u n from by simp [eraseKey, hp]]
      simp only [List.map_cons]
      exact ih.cons₂ _

theorem not_mem_keys_eraseKey (t : List (String × SpriteFrame)) (n : String) :
    n ∉ (eraseKey t n).map Prod.fst := by
  induction t with
  | nil => simp [eraseKey]
  | cons p u ih =>
    by_cases hp : p.1 = n
    · simpa [eraseKey, hp] using ih
    · have hnp : n ≠ p.1 := fun he => hp he.symm
      simp [eraseKey, hp, hnp, ih]

theorem keysNodup_addSpriteFrame (c : SpriteFrameCache) (hc : keysNodup c)
    (frame : SpriteFrame) (name : String) :
    keysNodup (addSpriteFrame c frame name) := by
  unfold keysNodup at hc ⊢
  simp only [addSpriteFrame, List.map_cons]
  exact List.nodup_cons.mpr ⟨not_mem_keys_eraseKey c.spriteFrames name,
    hc.sublist (keys_eraseKey_sublist c.spriteFrames name)⟩

theorem keysNodup_addDict (c : SpriteFrameCache)
    (frames : List (String × SpriteFrame)) (hc : keysNodup c) :
    keysNodup (addSpriteFramesWithDictionary c frames) := by
  induction frames generalizing c with
  | nil => exact hc
  | cons p t ih =>
    rw [addDict_cons]
    exact ih _ (keysNodup_addSpriteFrame c hc p.2 p.1)

theorem keys_eraseFold_sublist (frames : List (String × SpriteFrame))
    (t : List (String × SpriteFrame)) :
    List.Sublist ((frames.foldl (fun u p => eraseKey u p.1) t).map Prod.fst)
      (t.map Prod.fst) := by
  induction frames generalizing t with
  | nil => exact List.Sublist.refl _
  | cons p fs ih =>
    rw [List.foldl_cons]
    exact (ih (eraseKey t p.1)).trans (keys_eraseKey_sublist t p.1)

theorem keys_keepUsed_sublist (t : List (String × SpriteFrame)) :
    List.Sublist ((keepUsed t).map Prod.fst) (t.map Prod.fst) := by
  induction t with
  | nil => exact List.Sublist.refl _
  | cons p u ih =>
    by_cases hr : p.2.retainCount = 1
    · rw [show keepUsed (p :: u) = keepUsed u from by simp [keepUsed, hr]]
      simp only [List.map_cons]
      exact ih.cons _
    · rw [show keepUsed (p :: u) = p :: keepUsed u from by simp [keepUsed, hr]]
      simp only [List.map_cons]
      exact ih.cons₂ _

/-! ### Sample data for the concrete witnesses -/

/-- A frame held only by the cache (retain count 1). -/
def frameA : SpriteFrame :=
  { offsetX := 0, offsetY := 0, sizeW := 8, sizeH := 8, sourceW := 8,
    sourceH := 8, rectX := 0, rectY := 0, rectW := 8, rectH := 8,
    rotated := false, retainCount := 1 }

/-- A frame still referenced outside the cache (retain count 2). -/
def frameB : SpriteFrame :=
  { offsetX := 1, offsetY := 2, sizeW := 4, sizeH := 4, sourceW := 6,
    sourceH := 6, rectX := 16, rectY := 0, rectW := 4, rectH := 4,
    rotated := true, retainCount := 2 }

/-- Sample plist content with two frames. -/
def fileA : PlistFile := { frames := [("hero", frameA), ("tree", frameB)] }

/-- Sample plist content with one frame. -/
def fileB : PlistFile := { frames := [("rock", frameB)] }

/-- Cache obtained by loading `fileA` and then `fileB` into a fresh cache. -/
def cacheAB : SpriteFrameCache :=
  addSpriteFramesWithFile
    (addSpriteFramesWithFile emptyCache "a.plist" fileA) "b.plist" fileB

/-- Core load lemma: an actual (non-skipped) load makes every frame of the
file's dictionary retrievable. -/
theorem lookupFrame_addFile_mem (c : SpriteFrameCache) (plist : String)
    (file : PlistFile)
    (hnew : (isSpriteFramesWithFileLoaded c plist).1 = false)
    (hkeys : (file.frames.map Prod.fst).Nodup)
    (name : String) (frame : SpriteFrame)
    (hmem : (name, frame) ∈ file.frames) :
    (getSpriteFrameByName (addSpriteFramesWithFile c plist file) name).1 =
      some frame := by
  simp only [getSpriteFrameByName, addSpriteFramesWithFile, hnew,
    Bool.false_eq_true, if_false]
  exact lookupFrame_addDict_mem c file.frames name frame hkeys hmem

/-! ### The claims -/

/-- C1: when a plist file is loaded via `addSpriteFramesWithFile` (its name was
not already in the loaded-file set, and its frames dictionary binds each name
once), every frame name listed in the file's frames dictionary is afterwards
retrievable: `getSpriteFrameByName` returns the corresponding frame record. -/
theorem C1_load_populates (c : SpriteFrameCache) (plist : String)
    (file : PlistFile)
    (hnew : (isSpriteFramesWithFileLoaded c plist).1 = false)
    (hkeys : (file.frames.map Prod.fst).Nodup)
    (name : String) (frame : SpriteFrame)
    (hmem : (name, frame) ∈ file.frames) :
    (getSpriteFrameByName (addSpriteFramesWithFile c plist file) name).1 =
      some frame :=
  lookupFrame_addFile_mem c plist file hnew hkeys name frame hmem

/-- C1 witness: loading `fileA` into the empty cache makes `"hero"` resolve to
`frameA`. -/
theorem C1_load_populates_witness :
    (getSpriteFrameByName (addSpriteFramesWithFile emptyCache "a.plist" fileA)
      "hero").1 = some frameA :=
  C1_load_populates emptyCache "a.plist" fileA rfl (by decide) "hero" frameA
    (by decide)

/-- C2: a name that is not a key of the sprite-frame table yields a null
lookup: `getSpriteFrameByName` returns `none`. -/
theorem C2_miss_returns_none (c : SpriteFrameCache) (name : String)
    (h : name ∉ c.spriteFrames.map Prod.fst) :
    (getSpriteFrameByName c name).1 = none :=
  lookupFrame_none_of_notMem_keys c.spriteFrames name h

/-- C2 witness: `"ghost"` is not a key of `cacheAB`, and its lookup is null. -/
theorem C2_miss_returns_none_witness :
    (getSpriteFrameByName cacheAB "ghost").1 = none :=
  C2_miss_returns_none cacheAB "ghost" (by decide)

/-- C3: after `removeSpriteFramesFromFile`, every frame name defined in that
file is no longer in the table (its lookup is null), while every name not
defined in that file — in particular the frames that came from other files —
looks up exactly as before. -/
theorem C3_remove_file (c : SpriteFrameCache) (plist : String)
    (file : PlistFile) (name : String) :
    (name ∈ file.frames.map Prod.fst →
      (getSpriteFrameByName (removeSpriteFramesFromFile c plist file) name).1 =
        none)
    ∧ (name ∉ file.frames.map Prod.fst →
      (getSpriteFrameByName (removeSpriteFramesFromFile c plist file) name).1 =
        (getSpriteFrameByName c name).1) := by
  constructor
  · intro hmem
    simp only [getSpriteFrameByName, removeSpriteFramesFromFile,
      removeSpriteFramesFromDictionary]
    rw [lookupFrame_eraseFold, if_pos hmem]
  · intro hmem
    simp only [getSpriteFrameByName, removeSpriteFramesFromFile,
      removeSpriteFramesFromDictionary]
    rw [lookupFrame_eraseFold, if_neg hmem]

/-- C3 witness: removing `fileA` from `cacheAB` makes `"hero"` unresolvable
while leaving `"rock"` (which came from `fileB`) untouched. -/
theorem C3_remove_file_witness :
    (getSpriteFrameByName (removeSpriteFramesFromFile cacheAB "a.plist" fileA)
      "hero").1 = none
    ∧ (getSpriteFrameByName (removeSpriteFramesFromFile cacheAB "a.plist" fileA)
      "rock").1 = (getSpriteFrameByName cacheAB "rock").1 :=
  ⟨(C3_remove_file cacheAB "a.plist" fileA "hero").1 (by decide),
   (C3_remove_file cacheAB "a.plist" fileA "rock").2 (by decide)⟩

/-- C4: loading is idempotent on file names: when the plist name is already in
the loaded-file set, `addSpriteFramesWithFile` leaves the whole cache state
unchanged. -/
theorem C4_idempotent_load (c : SpriteFrameCache) (plist : String)
    (file : PlistFile)
    (h : (isSpriteFramesWithFileLoaded c plist).1 = true) :
    addSpriteFramesWithFile c plist file = c := by
  simp [addSpriteFramesWithFile, h]

/-- C4 witness: reloading `fileA`, already recorded in `cacheAB`, changes
nothing. -/
theorem C4_idempotent_load_witness :
    addSpriteFramesWithFile cacheAB "a.plist" fileA = cacheAB :=
  C4_idempotent_load cacheAB "a.plist" fileA (by decide)

/-- C5: `removeSpriteFrames` purges the whole dictionary: afterwards every
lookup is null and no plist file counts as loaded. -/
theorem C5_purge (c : SpriteFrameCache) (name : String) (plist : String) :
    (getSpriteFrameByName (removeSpriteFrames c) name).1 = none
    ∧ (isSpriteFramesWithFileLoaded (removeSpriteFrames c) plist).1 = false :=
  ⟨rfl, rfl⟩

/-- C6: `removeUnusedSpriteFrames` deletes exactly the cached frames whose
retain count is 1: a cached frame with retain count 1 is removed (its lookup
becomes null), and a cached frame with any other retain count is still
returned unchanged. -/
theorem C6_remove_unused (c : SpriteFrameCache) (hc : keysNodup c)
    (name : String) (frame : SpriteFrame)
    (h : (getSpriteFrameByName c name).1 = some frame) :
    (getSpriteFrameByName (removeUnusedSpriteFrames c) name).1 =
      if frame.retainCount = 1 then none else some frame :=
  lookupFrame_keepUsed c.spriteFrames name frame hc h

/-- C6 witness: in `cacheAB`, `"hero"` (retain count 1) is evicted while
`"tree"` (retain count 2) survives. -/
theorem C6_remove_unused_witness :
    (getSpriteFrameByName (removeUnusedSpriteFrames cacheAB) "hero").1 = none
    ∧ (getSpriteFrameByName (removeUnusedSpriteFrames cacheAB) "tree").1 =
        some frameB := by
  constructor
  · rw [C6_remove_unused cacheAB (by decide) "hero" frameA (by decide)]
    decide
  · rw [C6_remove_unused cacheAB (by decide) "tree" frameB (by decide)]
    decide

/-- C7: the cache keeps key uniqueness as an invariant — a table with no
duplicate keys still has no duplicate keys after each mutating operation —
and `addSpriteFrame` on an already-present name replaces the old binding, so
a subsequent `getSpriteFrameByName` returns the newly added frame. -/
theorem C7_key_uniqueness (c : SpriteFrameCache) (hc : keysNodup c)
    (frame : SpriteFrame) (name : String) (plist : String) (file : PlistFile) :
    keysNodup (addSpriteFrame c frame name)
    ∧ (getSpriteFrameByName (addSpriteFrame c frame name) name).1 = some frame
    ∧ keysNodup (addSpriteFramesWithFile c plist file)
    ∧ keysNodup (removeSpriteFrameByName c name)
    ∧ keysNodup (removeSpriteFramesFromFile c plist file)
    ∧ keysNodup (removeUnusedSpriteFrames c)
    ∧ keysNodup (removeSpriteFrames c) := by
  refine ⟨keysNodup_addSpriteFrame c hc frame name,
    lookupFrame_addSpriteFrame_self c frame name, ?_, ?_, ?_, ?_, ?_⟩
  · by_cases h : (isSpriteFramesWithFileLoaded c plist).1
    · simpa [addSpriteFramesWithFile, h] using hc
    · have h' : (isSpriteFramesWithFileLoaded c plist).1 = false := by
        simpa using h
      simp only [addSpriteFramesWithFile, h', Bool.false_eq_true, if_false]
      exact keysNodup_addDict c file.frames hc
  · exact hc.sublist (keys_eraseKey_sublist c.spriteFrames name)
  · exact hc.sublist (keys_eraseFold_sublist file.frames c.spriteFrames)
  · exact hc.sublist (keys_keepUsed_sublist c.spriteFrames)
  · exact List.nodup_nil

/-- C7 witness: the invariant and the replacement behavior at `cacheAB`,
rebinding `"hero"` to `frameB`. -/
theorem C7_key_uniqueness_witness :
    keysNodup (addSpriteFrame cacheAB frameB "hero")
    ∧ (getSpriteFrameByName (addSpriteFrame cacheAB frameB "hero") "hero").1 =
        some frameB
    ∧ keysNodup (addSpriteFramesWithFile cacheAB "a.plist" fileA)
    ∧ keysNodup (removeSpriteFrameByName cacheAB "hero")
    ∧ keysNodup (removeSpriteFramesFromFile cacheAB "a.plist" fileA)
    ∧ keysNodup (removeUnusedSpriteFrames cacheAB)
    ∧ keysNodup (removeSpriteFrames cacheAB) :=
  C7_key_uniqueness cacheAB (by decide) frameB "hero" "a.plist" fileA

/-- C8: the cache is a process-wide singleton — two `getInstance` calls with
no intervening `destroyInstance` return the same instance — and
`destroyInstance` empties the singleton slot, after which `getInstance`
yields a fresh, empty cache. -/
theorem C8_singleton (s : Option SpriteFrameCache) :
    (getInstance (getInstance s).2).1 = (getInstance s).1
    ∧ destroyInstance s = none
    ∧ (getInstance (destroyInstance s)).1 = emptyCache := by
  cases s with
  | none => exact ⟨rfl, rfl, rfl⟩
  | some c => exact ⟨rfl, rfl, rfl⟩

/-- C9: `getSpriteFrameByName` and `isSpriteFramesWithFileLoaded` are pure
observers: for every argument and every cache state, the cache state after
the call (frame table, alias map and loaded-file set alike) equals the state
before it. -/
theorem C9_observers_pure (c : SpriteFrameCache) (name : String)
    (plist : String) :
    (getSpriteFrameByName c name).2 = c
    ∧ (isSpriteFramesWithFileLoaded c plist).2 = c :=
  ⟨rfl, rfl⟩

/-- C10: `removeSpriteFramesFromFile` also drops the plist name from the
loaded-file set: afterwards the file no longer counts as loaded, and a
subsequent `addSpriteFramesWithFile` of that file is not skipped — it records
the file as loaded again and repopulates the table with the file's frames. -/
theorem C10_remove_then_reload (c : SpriteFrameCache) (plist : String)
    (file : PlistFile) (hkeys : (file.frames.map Prod.fst).Nodup) :
    (isSpriteFramesWithFileLoaded
      (removeSpriteFramesFromFile c plist file) plist).1 = false
    ∧ (isSpriteFramesWithFileLoaded
        (addSpriteFramesWithFile (removeSpriteFramesFromFile c plist file)
          plist file) plist).1 = true
    ∧ ∀ name frame, (name, frame) ∈ file.frames →
        (getSpriteFrameByName
          (addSpriteFramesWithFile (removeSpriteFramesFromFile c plist file)
            plist file) name).1 = some frame := by
  have h1 : (isSpriteFramesWithFileLoaded
      (removeSpriteFramesFromFile c plist file) plist).1 = false := by
    simp only [isSpriteFramesWithFileLoaded, removeSpriteFramesFromFile,
      removeSpriteFramesFromDictionary]
    exact containsName_removeName_self _ plist
  refine ⟨h1, ?_, ?_⟩
  · have h1' : containsName
        (removeSpriteFramesFromFile c plist file).loadedFileNames plist =
          false := h1
    simp [isSpriteFramesWithFileLoaded, addSpriteFramesWithFile,
      isSpriteFramesWithFileLoaded, h1', containsName]
  · intro name frame hmem
    exact lookupFrame_addFile_mem _ plist file h1 hkeys name frame hmem

/-- C10 witness: remove `fileA` from `cacheAB`, then reload it; the file is
unloaded in between, loaded afterwards, and `"hero"` resolves to `frameA`
again. -/
theorem C10_remove_then_reload_witness :
    (isSpriteFramesWithFileLoaded
      (removeSpriteFramesFromFile cacheAB "a.plist" fileA) "a.plist").1 = false
    ∧ (isSpriteFramesWithFileLoaded
        (addSpriteFramesWithFile
          (removeSpriteFramesFromFile cacheAB "a.plist" fileA)
          "a.plist" fileA) "a.plist").1 = true
    ∧ (getSpriteFrameByName
        (addSpriteFramesWithFile
          (removeSpriteFramesFromFile cacheAB "a.plist" fileA)
          "a.plist" fileA) "hero").1 = some frameA :=
  ⟨(C10_remove_then_reload cacheAB "a.plist" fileA (by decide)).1,
   (C10_remove_then_reload cacheAB "a.plist" fileA (by decide)).2.1,
   (C10_remove_then_reload cacheAB "a.plist" fileA (by decide)).2.2 "hero"
     frameA (by decide)⟩

end KRK
